import Mathlib

/-!
Verification of the drawing-canvas engine of the hellojournal-2 repository.

The definitions below are a shallow embedding of `src/utils/canvasOperations.ts`
and of the canvas component `src/components/DrawingCanvas.tsx` (the
feature-complete revision that implements history, zoom and the debounced
auto-save).  Floating-point geometry is modelled with exact rationals,
the browser local storage with an explicit `Store` record, and the JSON
strings stored there with structured document values (a stored draft that
would fail `JSON.parse` or the `canvasData` schema check is represented by
dedicated constructors).
-/

set_option autoImplicit false

namespace HelloJournal

/-- The `type` tag of a fabric object, restricted to the three variants the
engine produces: free-draw paths, interactive text and imported images. -/
inductive ObjKind
  | path
  | itext
  | image
deriving DecidableEq

/-- A scene object carrying exactly the properties that `saveCanvasState`
passes to `canvas.toJSON` as its property allow-list (plus the text content,
which fabric serializes intrinsically). -/
structure FabObj where
  kind : ObjKind
  left : Rat
  top : Rat
  angle : Rat
  scaleX : Rat
  scaleY : Rat
  width : Rat
  height : Rat
  opacity : Rat
  flipX : Bool
  flipY : Bool
  selectable : Bool
  hasControls : Bool
  editable : Bool
  evented : Bool
  perPixelTargetFind : Bool
  stroke : Option String
  strokeWidth : Rat
  fill : Option String
  path : List (Rat × Rat)
  strokeLineCap : String
  strokeLineJoin : String
  backgroundColor : Option String
  src : Option String
  crossOrigin : Option String
  text : String
deriving DecidableEq

/-- The free-drawing brush (fabric `PencilBrush`) state used by `updateBrush`. -/
structure Brush where
  color : String
  width : Rat
  strokeLineCap : String
  strokeLineJoin : String
deriving DecidableEq

/-- The fabric canvas as the engine sees it: canvas-level properties plus the
ordered object list (z-order is insertion order). -/
structure Canvas where
  width : Rat
  height : Rat
  backgroundColor : String
  isDrawingMode : Bool
  selection : Bool
  freeDrawingBrush : Brush
  objects : List FabObj
deriving DecidableEq

/-- The result of `canvas.toJSON(allowList)`: the serialized object list and
the canvas background.  At the granularity of the modelled properties the
serialization is the identity on each allow-listed field. -/
structure CanvasJSON where
  objects : List FabObj
  background : String
deriving DecidableEq

/-- `canvas.toJSON` with the allow-list of `saveCanvasState`. -/
def Canvas.toJSON (c : Canvas) : CanvasJSON :=
  ⟨c.objects, c.backgroundColor⟩

/-- The draft document written by `saveCanvasState`:
`{ version: '1.0', timestamp: Date.now(), canvasData: canvas.toJSON(...) }`. -/
structure CanvasState where
  version : String
  timestamp : Nat
  canvasData : CanvasJSON
deriving DecidableEq

/-- What the `journal_draft` local-storage slot may hold.  `malformed` stands
for a string on which `JSON.parse` throws; `noCanvasData` for a parsed
document whose `canvasData` field is missing or falsy; `valid` for a document
that passes both checks of `loadDraft`. -/
inductive StoredDraft
  | malformed
  | noCanvasData
  | valid (state : CanvasState)
deriving DecidableEq

/-- A persisted journal entry, as built by `saveEntry`.  `createdAt` and
`updatedAt` model the ISO timestamp strings by the clock value they encode,
and `content` models the canvas-JSON string by its structured value. -/
structure JournalEntry where
  id : String
  title : String
  content : CanvasJSON
  type : String
  createdAt : Nat
  updatedAt : Nat
  isDraft : Bool
deriving DecidableEq

/-- The browser local storage restricted to the two keys the engine uses:
the `journal_draft` slot and the `journal_entries` list. -/
structure Store where
  draft : Option StoredDraft
  entries : List JournalEntry
deriving DecidableEq

/-- A store with no draft and no entries. -/
def emptyStore : Store := ⟨none, []⟩

/-- `saveCanvasState` (canvasOperations.ts, first revision): with zero objects
it removes the `journal_draft` key; otherwise it overwrites the slot with a
fresh `{ version, timestamp, canvasData }` document. -/
def saveCanvasState (store : Store) (ts : Nat) (c : Canvas) : Store :=
  if c.objects.isEmpty then
    { store with draft := none }
  else
    { store with draft := some (StoredDraft.valid ⟨"1.0", ts, c.toJSON⟩) }

/-- The property-restoration pass `loadDraft` runs over every loaded object:
common interaction flags are forced on, `i-text` objects additionally get
`editable := true`, and `path` objects get round caps/joins and no fill. -/
def restoreProps (o : FabObj) : FabObj :=
  let o1 : FabObj :=
    { o with selectable := true, hasControls := true, evented := true,
             perPixelTargetFind := true }
  let o2 : FabObj :=
    if o1.kind = ObjKind.itext then { o1 with editable := true } else o1
  if o2.kind = ObjKind.path then
    { o2 with strokeLineCap := "round", strokeLineJoin := "round", fill := none }
  else o2

/-- `loadDraft` (canvasOperations.ts, first revision): returns `false` when
the slot is absent, when `JSON.parse` throws (caught by the surrounding
`try`), or when the parsed document has no `canvasData`; otherwise it clears
the canvas, loads the saved objects, runs the property restoration and
returns `true`.  The returned canvas is the second component. -/
def loadDraft (store : Store) (c : Canvas) : Bool × Canvas :=
  match store.draft with
  | none => (false, c)
  | some StoredDraft.malformed => (false, c)
  | some StoredDraft.noCanvasData => (false, c)
  | some (StoredDraft.valid st) =>
      (true,
        { c with
            objects := st.canvasData.objects.map restoreProps,
            backgroundColor := st.canvasData.background })

/-- The entry record `saveEntry` constructs: id `Date.now().toString()`,
serialized canvas as content, both timestamps at the current clock. -/
def mkJournalEntry (now : Nat) (title : String) (c : Canvas) : JournalEntry :=
  ⟨toString now, title, c.toJSON, "drawing", now, now, false⟩

/-- `saveEntry` (canvasOperations.ts, second revision): appends the new entry
to the `journal_entries` list and only then removes the `journal_draft` key.
`setItemSucceeds` models whether the `localStorage.setItem` write of the
entries list succeeds; when it throws (quota exceeded) the exception
propagates before `removeItem` runs, so the store is unchanged. -/
def saveEntry (store : Store) (now : Nat) (c : Canvas) (title : String)
    (setItemSucceeds : Bool) : Store × Option JournalEntry :=
  let entry := mkJournalEntry now title c
  if setItemSucceeds then
    ({ draft := none, entries := store.entries ++ [entry] }, some entry)
  else
    (store, none)

/-- `deleteEntry`: keeps exactly the stored entries whose id differs from the
given one and writes the filtered list back. -/
def deleteEntry (store : Store) (id : String) : Store :=
  { store with entries := store.entries.filter (fun e => e.id != id) }

/-- The interaction tools of the canvas component. -/
inductive Tool
  | pen
  | eraser
  | text
  | lasso
deriving DecidableEq

/-- `updateBrush` (canvasOperations.ts, first revision): drawing mode is on
exactly for pen and eraser; for those two tools a fresh round-capped brush of
the requested size is installed, colored with the pen color for the pen and
with the canvas background color for the eraser. -/
def updateBrush (c : Canvas) (tool : Tool) (brushSize : Rat)
    (penColor : String) : Canvas :=
  let drawing := tool = Tool.pen ∨ tool = Tool.eraser
  let c1 : Canvas :=
    { c with isDrawingMode := decide drawing, selection := !decide drawing }
  if tool = Tool.pen ∨ tool = Tool.eraser then
    { c1 with
        freeDrawingBrush :=
          { width := brushSize
            strokeLineCap := "round"
            strokeLineJoin := "round"
            color := if tool = Tool.pen then penColor else c.backgroundColor } }
  else c1

/-- The component's brush-size wiring (`DrawingCanvas.tsx`): the size handed
to `updateBrush` is `eraserSize` for the eraser and `brushSize` otherwise,
the two being independent pieces of state. -/
def brushSizeFor (tool : Tool) (brushSize eraserSize : Rat) : Rat :=
  if tool = Tool.eraser then eraserSize else brushSize

/-- The brush-updating effect of the component: `updateBrush` applied with
the tool-appropriate size. -/
def applyToolBrush (c : Canvas) (tool : Tool) (brushSize eraserSize : Rat)
    (penColor : String) : Canvas :=
  updateBrush c tool (brushSizeFor tool brushSize eraserSize) penColor

/-- The path object a committed free-draw stroke produces, carrying the
active brush color, width and round caps/joins. -/
def mkStrokeObj (pts : List (Rat × Rat)) (color : String) (w : Rat) : FabObj :=
  { kind := ObjKind.path, left := 0, top := 0, angle := 0, scaleX := 1,
    scaleY := 1, width := 0, height := 0, opacity := 1, flipX := false,
    flipY := false, selectable := true, hasControls := true, editable := false,
    evented := true, perPixelTargetFind := false, stroke := some color,
    strokeWidth := w, fill := none, path := pts, strokeLineCap := "round",
    strokeLineJoin := "round", backgroundColor := none, src := none,
    crossOrigin := none, text := "" }

/-- Modelled from the spec: the rendering collaborator (fabric's
`PencilBrush`) commits a pointer-released free-draw stroke to the scene as a
path object whose stroke color and width are those of the active
`freeDrawingBrush` (spec 4.5: a stroke "is committed to the Scene on
pointer-release" using the active color/width; the brush-finalization code
lives in the external fabric library, not in this repository). -/
def commitStroke (c : Canvas) (pts : List (Rat × Rat)) : Canvas :=
  { c with
      objects :=
        c.objects ++
          [mkStrokeObj pts c.freeDrawingBrush.color c.freeDrawingBrush.width] }

/-- The component state relevant to history: the snapshot list `history`, the
cursor `historyIndex` (starting at `-1`), the `canUndo`/`canRedo` flags and
the current scene content of the canvas. -/
structure HistoryState where
  history : List CanvasJSON
  historyIndex : Int
  canUndo : Bool
  canRedo : Bool
  scene : CanvasJSON
deriving DecidableEq

/-- The scene of a freshly initialized canvas: no objects, paper background. -/
def emptyScene : CanvasJSON := ⟨[], "#f9f8f4"⟩

/-- The component's initial history state: empty history, cursor `-1`. -/
def initialHistory : HistoryState := ⟨[], -1, false, false, emptyScene⟩

/-- The `object:added` handler of `DrawingCanvas.tsx`: the canvas now shows
`newScene` (the scene with the object just added); its serialization is
appended after the cursor, any redo branch is discarded, the cursor moves to
the new last index, and redo becomes unavailable. -/
def objectAdded (st : HistoryState) (newScene : CanvasJSON) : HistoryState :=
  { history := st.history.take (st.historyIndex + 1).toNat ++ [newScene]
    historyIndex := st.historyIndex + 1
    canUndo := true
    canRedo := false
    scene := newScene }

/-- `handleUndo`: a no-op when the cursor is at or below `0`; otherwise the
cursor moves back one step and the snapshot there is loaded onto the canvas. -/
def handleUndo (st : HistoryState) : HistoryState :=
  if st.historyIndex ≤ 0 then st
  else
    let newIndex := st.historyIndex - 1
    { st with
        historyIndex := newIndex
        canRedo := true
        canUndo := if newIndex = 0 then false else st.canUndo
        scene := st.history.getD newIndex.toNat st.scene }

/-- `handleRedo`: a no-op when the cursor is at the last index; otherwise the
cursor moves forward one step and the snapshot there is loaded. -/
def handleRedo (st : HistoryState) : HistoryState :=
  if (st.history.length : Int) - 1 ≤ st.historyIndex then st
  else
    let newIndex := st.historyIndex + 1
    { st with
        historyIndex := newIndex
        canUndo := true
        canRedo := if newIndex = (st.history.length : Int) - 1 then false
                   else st.canRedo
        scene := st.history.getD newIndex.toNat st.scene }

/-- A sequence of history pushes, one per added object. -/
def pushAll (st : HistoryState) (l : List CanvasJSON) : HistoryState :=
  l.foldl objectAdded st

/-- The debounce state of `handleCanvasChange`: the fire times of the live
(scheduled, neither cleared nor fired) save timers, newest first, and the
number of draft saves performed so far. -/
structure DebounceState where
  pending : List Nat
  saves : Nat
deriving DecidableEq

/-- The event loop fires every pending timer whose fire time has been
reached, each firing performing one draft save. -/
def fireDue (t : Nat) (st : DebounceState) : DebounceState :=
  { pending := st.pending.filter (fun f => decide (t < f))
    saves := st.saves + (st.pending.filter (fun f => decide (f ≤ t))).length }

/-- `handleCanvasChange` at clock time `t`: timers due by `t` have fired,
then `clearTimeout(timeoutId)` cancels the most recently scheduled timer if
it is still live, then `setTimeout(..., 1000)` schedules a save at
`t + 1000`. -/
def handleCanvasChange (t : Nat) (st : DebounceState) : DebounceState :=
  let st1 := fireDue t st
  let st2 : DebounceState := { st1 with pending := st1.pending.tail }
  { st2 with pending := (t + 1000) :: st2.pending }

/-- Run a burst of mutation events at the given clock times. -/
def runEvents (ts : List Nat) (st : DebounceState) : DebounceState :=
  ts.foldl (fun s t => handleCanvasChange t s) st

/-- The debounce state before any mutation: no timer, no save yet. -/
def initialDebounce : DebounceState := ⟨[], 0⟩

/-- The saves eventually performed once time runs out: those already done
plus one per still-pending timer. -/
def totalSaves (st : DebounceState) : Nat := st.saves + st.pending.length

/-- Event times are non-decreasing and each gap is strictly inside the
1000 ms debounce window. -/
def gapsOk : List Nat → Bool
  | a :: b :: r => (decide (a ≤ b) && decide (b < a + 1000)) && gapsOk (b :: r)
  | _ => true

/-- The four zoom mutations: the two toolbar buttons (`handleZoom`, factors
1.1 and 0.9) and the two wheel directions (factors 1.05 and 0.95). -/
inductive ZoomOp
  | buttonIn
  | buttonOut
  | wheelIn
  | wheelOut
deriving DecidableEq

/-- `Math.min(Math.max(0.1, z), 5)`, the clamp both zoom handlers apply. -/
def clampZoom (z : Rat) : Rat := min (max (1 / 10) z) 5

/-- One zoom mutation: multiply by the operation's factor, then clamp. -/
def zoomStep (z : Rat) : ZoomOp → Rat
  | ZoomOp.buttonIn => clampZoom (z * (11 / 10))
  | ZoomOp.buttonOut => clampZoom (z * (9 / 10))
  | ZoomOp.wheelIn => clampZoom (z * (21 / 20))
  | ZoomOp.wheelOut => clampZoom (z * (19 / 20))

/-- The zoom factor after a sequence of operations from the initial zoom 1. -/
def runZoom (ops : List ZoomOp) : Rat := ops.foldl zoomStep 1

/-! ### Concrete fixtures used by counterexamples and witnesses -/

/-- A committed three-point pen stroke whose `selectable` flag has been
turned off (fabric allows this through `obj.set`); all other interaction
flags are on. -/
def strokeNoSelect : FabObj :=
  { kind := ObjKind.path, left := 10, top := 20, angle := 0, scaleX := 1,
    scaleY := 1, width := 30, height := 40, opacity := 1, flipX := false,
    flipY := false, selectable := false, hasControls := true,
    editable := false, evented := true, perPixelTargetFind := true,
    stroke := some "#000000", strokeWidth := 2, fill := none,
    path := [(10, 20), (25, 35), (40, 60)], strokeLineCap := "round",
    strokeLineJoin := "round", backgroundColor := none, src := none,
    crossOrigin := none, text := "" }

/-- A text object whose interaction flags are all off in the stored draft. -/
def textAllFlagsOff : FabObj :=
  { kind := ObjKind.itext, left := 5, top := 6, angle := 0, scaleX := 1,
    scaleY := 1, width := 50, height := 12, opacity := 1, flipX := false,
    flipY := false, selectable := false, hasControls := false,
    editable := false, evented := false, perPixelTargetFind := false,
    stroke := none, strokeWidth := 1, fill := some "#000000", path := [],
    strokeLineCap := "butt", strokeLineJoin := "miter",
    backgroundColor := none, src := none, crossOrigin := none,
    text := "hello" }

/-- The default round pencil brush `initializeCanvas` installs. -/
def defaultBrush : Brush := ⟨"#000000", 2, "round", "round"⟩

/-- A freshly initialized 600 by 800 canvas with no objects. -/
def canvasBlank : Canvas :=
  ⟨600, 800, "#f9f8f4", true, true, defaultBrush, []⟩

/-- The blank canvas with the single deselectable stroke drawn on it. -/
def canvasOneStroke : Canvas :=
  { canvasBlank with objects := [strokeNoSelect] }

/-- The serialized scene holding the single stroke. -/
def sceneOneStroke : CanvasJSON := canvasOneStroke.toJSON

/-- A second serialized scene (the stroke plus the text object). -/
def sceneTwoObjects : CanvasJSON :=
  ⟨[strokeNoSelect, textAllFlagsOff], "#f9f8f4"⟩

/-- A stored draft document whose objects carry all-off interaction flags. -/
def draftFlagsOff : CanvasState := ⟨"1.0", 42, sceneTwoObjects⟩

/-- A store whose draft slot holds `draftFlagsOff`. -/
def storeFlagsOff : Store := ⟨some (StoredDraft.valid draftFlagsOff), []⟩

/-- A sample persisted entry used in store fixtures. -/
def entryA : JournalEntry :=
  ⟨"100", "first", sceneOneStroke, "drawing", 100, 100, false⟩

/-- A second sample entry with a distinct id. -/
def entryB : JournalEntry :=
  ⟨"200", "second", sceneTwoObjects, "drawing", 200, 200, false⟩

/-! ### Facts about the property-restoration pass -/

/-- The geometry fields of an object that claim C1 tracks. -/
def geomOf (o : FabObj) :
    Rat × Rat × Rat × Rat × Rat × Rat × Rat × Rat :=
  (o.left, o.top, o.angle, o.scaleX, o.scaleY, o.width, o.height, o.opacity)

theorem restoreProps_kind (o : FabObj) : (restoreProps o).kind = o.kind := by
  unfold restoreProps
  dsimp only
  split <;> split <;> rfl

theorem restoreProps_geom (o : FabObj) : geomOf (restoreProps o) = geomOf o := by
  unfold restoreProps geomOf
  dsimp only
  split <;> split <;> rfl

theorem restoreProps_flags (o : FabObj) :
    (restoreProps o).selectable = true ∧ (restoreProps o).hasControls = true ∧
    (restoreProps o).evented = true ∧
    (restoreProps o).perPixelTargetFind = true ∧
    ((restoreProps o).kind = ObjKind.itext →
      (restoreProps o).editable = true) := by
  unfold restoreProps
  dsimp only
  split <;> split <;> simp_all

/-! ### Claim C1: the draft save/load round trip -/

/-- The round trip of claim C1: persist the scene of `c` through
`saveCanvasState` into a fresh store, then restore it with `loadDraft` onto
the canvas `c0`. -/
def draftRoundTrip (ts : Nat) (c c0 : Canvas) : Bool × Canvas :=
  loadDraft (saveCanvasState emptyStore ts c) c0

theorem map_restoreProps_kind (l : List FabObj) :
    (l.map restoreProps).map FabObj.kind = l.map FabObj.kind := by
  induction l with
  | nil => rfl
  | cons a t ih => simp [restoreProps_kind, ih]

theorem map_restoreProps_geom (l : List FabObj) :
    (l.map restoreProps).map geomOf = l.map geomOf := by
  induction l with
  | nil => rfl
  | cons a t ih => simp [restoreProps_geom, ih]

/-- Counterexample to C1 as stated: the stroke whose stored `selectable`
flag is `false` comes back from the round trip with `selectable = true`, so
the allow-listed interaction flags of the loaded scene differ from those of
the saved scene.  The undo step is even a pure no-op on the flag: the load
also reports success. -/
theorem draftRoundTrip_flags_counterexample :
    (draftRoundTrip 0 canvasOneStroke canvasBlank).2.objects.map
        FabObj.selectable
      ≠ canvasOneStroke.objects.map FabObj.selectable := by
  decide

/-- C1 (amended): for every scene with at least one object, the
save/load round trip succeeds and reconstructs a scene with the same object
count, the same variant per object and the same geometry (left, top, angle,
scaleX, scaleY, width, height, opacity); the interaction flags
`selectable`, `hasControls` and `evented` however are restored as `true`
regardless of their saved values (and `editable` as `true` on text
objects), so they match the original scene only when they were already
`true` there. -/
theorem draftRoundTrip_preserves_structure (ts : Nat) (c c0 : Canvas)
    (h : c.objects ≠ []) :
    (draftRoundTrip ts c c0).1 = true
  ∧ (draftRoundTrip ts c c0).2.objects.length = c.objects.length
  ∧ (draftRoundTrip ts c c0).2.objects.map FabObj.kind
        = c.objects.map FabObj.kind
  ∧ (draftRoundTrip ts c c0).2.objects.map geomOf = c.objects.map geomOf
  ∧ ∀ o ∈ (draftRoundTrip ts c c0).2.objects,
      o.selectable = true ∧ o.hasControls = true ∧ o.evented = true ∧
      (o.kind = ObjKind.itext → o.editable = true) := by
  have hobj : (draftRoundTrip ts c c0).2.objects
      = c.objects.map restoreProps := by
    simp [draftRoundTrip, saveCanvasState, loadDraft, List.isEmpty_iff, h,
      Canvas.toJSON]
  refine ⟨?_, ?_, ?_, ?_, ?_⟩
  · simp [draftRoundTrip, saveCanvasState, loadDraft, List.isEmpty_iff, h]
  · rw [hobj, List.length_map]
  · rw [hobj, map_restoreProps_kind]
  · rw [hobj, map_restoreProps_geom]
  · intro o ho
    rw [hobj] at ho
    obtain ⟨o', _, rfl⟩ := List.mem_map.mp ho
    have hf := restoreProps_flags o'
    exact ⟨hf.1, hf.2.1, hf.2.2.1, hf.2.2.2.2⟩

/-- Witness for the amended C1: the one-stroke canvas round-trips with its
count, variant and geometry intact. -/
theorem draftRoundTrip_preserves_structure_witness :
    (canvasOneStroke.objects ≠ []) ∧
    ((draftRoundTrip 3 canvasOneStroke canvasBlank).1 = true
     ∧ (draftRoundTrip 3 canvasOneStroke canvasBlank).2.objects.length
           = canvasOneStroke.objects.length
     ∧ (draftRoundTrip 3 canvasOneStroke canvasBlank).2.objects.map
           FabObj.kind = canvasOneStroke.objects.map FabObj.kind
     ∧ (draftRoundTrip 3 canvasOneStroke canvasBlank).2.objects.map geomOf
           = canvasOneStroke.objects.map geomOf
     ∧ ∀ o ∈ (draftRoundTrip 3 canvasOneStroke canvasBlank).2.objects,
         o.selectable = true ∧ o.hasControls = true ∧ o.evented = true ∧
         (o.kind = ObjKind.itext → o.editable = true)) :=
  ⟨by decide,
   draftRoundTrip_preserves_structure 3 canvasOneStroke canvasBlank
     (by decide)⟩

/-! ### Claim C2: linear undo/redo over the push history -/

/-- Default-insensitivity of `getD 0` on a non-empty list. -/
theorem getD_zero_congr {α : Type} (l : List α) (h : l ≠ []) (d d' : α) :
    l.getD 0 d = l.getD 0 d' := by
  cases l with
  | nil => exact absurd rfl h
  | cons a t => rfl

/-- Pushing onto a saturated history state (cursor at the last index, as
every reachable state after a push is) appends the snapshot and moves the
cursor to the new last index. -/
theorem objectAdded_saturated (st : HistoryState) (s : CanvasJSON)
    (h : st.historyIndex = (st.history.length : Int) - 1) :
    objectAdded st s =
      { history := st.history ++ [s]
        historyIndex := (st.history.length : Int)
        canUndo := true
        canRedo := false
        scene := s } := by
  have h1 : (st.historyIndex + 1).toNat = st.history.length := by omega
  have h2 : st.historyIndex + 1 = (st.history.length : Int) := by omega
  simp [objectAdded, h1, h2, List.take_length]

theorem pushAll_saturated (l : List CanvasJSON) :
    ∀ st : HistoryState, st.historyIndex = (st.history.length : Int) - 1 →
      (pushAll st l).history = st.history ++ l ∧
      (pushAll st l).historyIndex
          = ((st.history.length + l.length : Nat) : Int) - 1 ∧
      (pushAll st l).scene = l.getLastD st.scene := by
  induction l with
  | nil =>
      intro st h
      refine ⟨by simp [pushAll], by simpa [pushAll] using h, rfl⟩
  | cons a t ih =>
      intro st h
      have hadd := objectAdded_saturated st a h
      have hsat' : (objectAdded st a).historyIndex
          = (((objectAdded st a).history.length : Nat) : Int) - 1 := by
        rw [hadd]; simp
      have hstep : pushAll st (a :: t) = pushAll (objectAdded st a) t := rfl
      obtain ⟨ih1, ih2, ih3⟩ := ih (objectAdded st a) hsat'
      refine ⟨?_, ?_, ?_⟩
      · rw [hstep, ih1, hadd]
        simp
      · rw [hstep, ih2, hadd]
        simp
        omega
      · rw [hstep, ih3, hadd]
        dsimp only
        cases t <;> rfl

/-- After `j` undos from a state whose cursor sits at `j` inside the
history, the history is untouched, the cursor is at `0` and the canvas shows
the snapshot at index `0` (for `j = 0` nothing happens at all). -/
theorem handleUndo_iterated (j : Nat) :
    ∀ st : HistoryState, st.historyIndex = (j : Int) →
      (j : Int) < (st.history.length : Int) →
      (handleUndo^[j] st).history = st.history ∧
      ((handleUndo^[j] st).scene
          = if j = 0 then st.scene else st.history.getD 0 st.scene) ∧
      ((handleUndo^[j] st).historyIndex
          = if j = 0 then st.historyIndex else 0) := by
  induction j with
  | zero =>
      intro st h hl
      simp
  | succ n ih =>
      intro st h hl
      have hgt : ¬ st.historyIndex ≤ 0 := by omega
      have hstep : handleUndo st =
          { st with
              historyIndex := st.historyIndex - 1
              canRedo := true
              canUndo := if st.historyIndex - 1 = 0 then false else st.canUndo
              scene := st.history.getD (st.historyIndex - 1).toNat st.scene } := by
        rw [handleUndo, if_neg hgt]
      have htn : (st.historyIndex - 1).toNat = n := by omega
      rw [Function.iterate_succ_apply]
      have hidx' : (handleUndo st).historyIndex = (n : Int) := by
        rw [hstep]; dsimp only; omega
      have hhist' : (handleUndo st).history = st.history := by rw [hstep]
      have hscene' : (handleUndo st).scene = st.history.getD n st.scene := by
        rw [hstep]; dsimp only; rw [htn]
      have hl' : (n : Int) < ((handleUndo st).history.length : Int) := by
        rw [hhist']; omega
      obtain ⟨ih1, ih2, ih3⟩ := ih (handleUndo st) hidx' hl'
      have hne : ¬ (n + 1 = 0) := Nat.succ_ne_zero n
      refine ⟨by rw [ih1, hhist'], ?_, ?_⟩
      · rw [ih2, if_neg hne]
        by_cases hn : n = 0
        · subst hn
          rw [if_pos rfl, hscene']
        · rw [if_neg hn, hhist']
          have h0 : st.history ≠ [] := by
            intro hemp
            rw [hemp] at hl
            simp at hl
            omega
          rw [getD_zero_congr st.history h0 (handleUndo st).scene st.scene]
      · rw [ih3, if_neg hne]
        by_cases hn : n = 0
        · rw [if_pos hn, hidx', hn]
          simp
        · rw [if_neg hn]

/-- `handleRedo` is a no-op on a state whose cursor is at the last index. -/
theorem handleRedo_saturated (st : HistoryState)
    (h : (st.history.length : Int) - 1 ≤ st.historyIndex) :
    handleRedo st = st := by
  rw [handleRedo, if_pos h]

/-- Counterexample to C2 as stated: from the initial state, one push of the
one-stroke scene followed by one undo does not return the canvas to the
empty initial scene; the undo is a no-op (the cursor is already at 0) and
the scene still shows the pushed snapshot. -/
theorem history_undo_counterexample :
    (handleUndo (objectAdded initialHistory sceneOneStroke)).scene
        ≠ emptyScene
  ∧ (handleUndo (objectAdded initialHistory sceneOneStroke)).scene
        = sceneOneStroke := by
  exact ⟨by decide, by decide⟩

/-- C2 (amended): for any non-empty sequence of history pushes from the
initial state (cursor -1, empty history), calling undo as many times as
there were pushes returns the scene to the FIRST pushed snapshot — the
serialization taken right after the first object was added — not to the
empty initial state (the last undo is a no-op at cursor 0); and after any
fresh push redo is unavailable: `canRedo` is `false` and `handleRedo` is a
no-op. -/
theorem history_undo_redo_linear (l : List CanvasJSON) (s : CanvasJSON)
    (hl : l ≠ []) :
    (handleUndo^[l.length] (pushAll initialHistory l)).scene
        = l.getD 0 emptyScene
  ∧ (objectAdded (pushAll initialHistory l) s).canRedo = false
  ∧ handleRedo (objectAdded (pushAll initialHistory l) s)
        = objectAdded (pushAll initialHistory l) s := by
  have hsat0 : initialHistory.historyIndex
      = (initialHistory.history.length : Int) - 1 := by decide
  obtain ⟨hh, hi, hs⟩ := pushAll_saturated l initialHistory hsat0
  have hh' : (pushAll initialHistory l).history = l := by simpa using hh
  have hi' : (pushAll initialHistory l).historyIndex = (l.length : Int) - 1 := by
    rw [hi]
    simp [initialHistory]
  have hn : 0 < l.length := List.length_pos.mpr hl
  have hsat : (pushAll initialHistory l).historyIndex
      = ((pushAll initialHistory l).history.length : Int) - 1 := by
    rw [hh', hi']
  refine ⟨?_, ?_, ?_⟩
  · have hidxj : (pushAll initialHistory l).historyIndex
        = ((l.length - 1 : Nat) : Int) := by
      rw [hi']; omega
    have hlt : ((l.length - 1 : Nat) : Int)
        < ((pushAll initialHistory l).history.length : Int) := by
      rw [hh']; omega
    obtain ⟨u1, u2, u3⟩ :=
      handleUndo_iterated (l.length - 1) (pushAll initialHistory l) hidxj hlt
    have hidx0 : (handleUndo^[l.length - 1] (pushAll initialHistory l)).historyIndex
        = 0 := by
      rw [u3]
      by_cases h1 : l.length - 1 = 0
      · rw [if_pos h1, hi']; omega
      · rw [if_neg h1]
    have hscene : (handleUndo^[l.length - 1] (pushAll initialHistory l)).scene
        = l.getD 0 emptyScene := by
      rw [u2]
      by_cases h1 : l.length - 1 = 0
      · rw [if_pos h1, hs]
        match l, hl with
        | [a], _ => rfl
        | a :: b :: t, _ => simp at h1
      · rw [if_neg h1, hh']
        exact getD_zero_congr l hl _ _
    have hsplit : l.length = (l.length - 1) + 1 := by omega
    have hfinal : handleUndo^[l.length] (pushAll initialHistory l)
        = handleUndo (handleUndo^[l.length - 1] (pushAll initialHistory l)) := by
      conv_lhs => rw [hsplit]
      rw [Function.iterate_succ_apply']
    rw [hfinal, handleUndo, if_pos (le_of_eq hidx0)]
    exact hscene
  · rw [objectAdded_saturated _ _ hsat]
  · refine handleRedo_saturated _ ?_
    rw [objectAdded_saturated _ _ hsat]
    simp

/-- Witness for the amended C2: two pushes, two undos, back to the first
snapshot; redo after a fresh push is unavailable. -/
theorem history_undo_redo_linear_witness :
    (([sceneOneStroke, sceneTwoObjects] : List CanvasJSON) ≠ []) ∧
    ((handleUndo^[([sceneOneStroke, sceneTwoObjects] : List CanvasJSON).length]
          (pushAll initialHistory [sceneOneStroke, sceneTwoObjects])).scene
        = ([sceneOneStroke, sceneTwoObjects] : List CanvasJSON).getD 0 emptyScene
     ∧ (objectAdded (pushAll initialHistory [sceneOneStroke, sceneTwoObjects])
          sceneTwoObjects).canRedo = false
     ∧ handleRedo (objectAdded
          (pushAll initialHistory [sceneOneStroke, sceneTwoObjects])
          sceneTwoObjects)
        = objectAdded (pushAll initialHistory [sceneOneStroke, sceneTwoObjects])
            sceneTwoObjects) :=
  ⟨by decide,
   history_undo_redo_linear [sceneOneStroke, sceneTwoObjects] sceneTwoObjects
     (by decide)⟩

/-! ### Claim C3: the debounce coalesces a burst into one save -/

/-- One mutation keeps the number of live timers at (at most, in fact
exactly) one: the handler clears the previously scheduled timer before
scheduling the next. -/
theorem handleCanvasChange_pending (t : Nat) (st : DebounceState)
    (h : st.pending.length ≤ 1) :
    (handleCanvasChange t st).pending.length ≤ 1 := by
  show ((t + 1000) ::
      (st.pending.filter (fun f => decide (t < f))).tail).length ≤ 1
  have h1 : (st.pending.filter (fun f => decide (t < f))).length ≤ 1 :=
    le_trans (List.length_filter_le _ _) h
  simp only [List.length_cons, List.length_tail]
  omega

theorem runEvents_pending (ts : List Nat) :
    ∀ st : DebounceState, st.pending.length ≤ 1 →
      (runEvents ts st).pending.length ≤ 1 := by
  induction ts with
  | nil => exact fun st h => h
  | cons a t ih => exact fun st h => ih _ (handleCanvasChange_pending a st h)

/-- While the gaps stay inside the window, each event finds the previous
timer still pending, cancels it and reschedules: no save fires during the
burst and exactly one timer — due 1000 ms after the latest event — survives. -/
theorem runEvents_chain (rest : List Nat) :
    ∀ a s : Nat, gapsOk (a :: rest) = true →
      runEvents rest ⟨[a + 1000], s⟩ = ⟨[rest.getLastD a + 1000], s⟩ := by
  induction rest with
  | nil => intro a s _; rfl
  | cons b r ih =>
      intro a s hg
      have hg' : (a ≤ b ∧ b < a + 1000) ∧ gapsOk (b :: r) = true := by
        simpa [gapsOk, Bool.and_eq_true, decide_eq_true_eq] using hg
      have hb : b < a + 1000 := hg'.1.2
      have hnb : ¬ (a + 1000 ≤ b) := by omega
      have hstep : handleCanvasChange b ⟨[a + 1000], s⟩ = ⟨[b + 1000], s⟩ := by
        simp [handleCanvasChange, fireDue, hb, hnb]
      show runEvents r (handleCanvasChange b ⟨[a + 1000], s⟩) = _
      rw [hstep, ih b s hg'.2]
      cases r <;> rfl

/-- C3: for every burst of one or more mutation events whose consecutive
gaps are all strictly inside the 1000 ms debounce window, no save fires
during the burst, exactly one save timer — due 1000 ms after the last
event — is left pending (so exactly one draft save is performed in total,
not one per event), and after every prefix of the burst at most one save
timer is pending. -/
theorem debounce_single_save (ts : List Nat) (h1 : ts ≠ [])
    (h2 : gapsOk ts = true) :
    (runEvents ts initialDebounce).saves = 0
  ∧ (runEvents ts initialDebounce).pending = [ts.getLastD 0 + 1000]
  ∧ totalSaves (runEvents ts initialDebounce) = 1
  ∧ ∀ p q : List Nat, ts = p ++ q →
      (runEvents p initialDebounce).pending.length ≤ 1 := by
  obtain ⟨a, rest, rfl⟩ := List.exists_cons_of_ne_nil h1
  have hfirst : handleCanvasChange a initialDebounce = ⟨[a + 1000], 0⟩ := by
    simp [handleCanvasChange, fireDue, initialDebounce]
  have hrun : runEvents (a :: rest) initialDebounce
      = ⟨[rest.getLastD a + 1000], 0⟩ := by
    show runEvents rest (handleCanvasChange a initialDebounce) = _
    rw [hfirst]
    exact runEvents_chain rest a 0 h2
  refine ⟨by rw [hrun], ?_, ?_, ?_⟩
  · rw [hrun]
    cases rest <;> rfl
  · rw [totalSaves, hrun]
    rfl
  · intro p q _
    exact runEvents_pending p initialDebounce (by simp [initialDebounce])

/-- Witness for C3: three mutations at 0, 500 and 900 ms produce a single
save scheduled at 1900 ms. -/
theorem debounce_single_save_witness :
    (([0, 500, 900] : List Nat) ≠ []) ∧
    gapsOk [0, 500, 900] = true ∧
    ((runEvents [0, 500, 900] initialDebounce).saves = 0
     ∧ (runEvents [0, 500, 900] initialDebounce).pending
          = [([0, 500, 900] : List Nat).getLastD 0 + 1000]
     ∧ totalSaves (runEvents [0, 500, 900] initialDebounce) = 1
     ∧ ∀ p q : List Nat, ([0, 500, 900] : List Nat) = p ++ q →
        (runEvents p initialDebounce).pending.length ≤ 1) :=
  ⟨by decide, by decide,
   debounce_single_save [0, 500, 900] (by decide) (by decide)⟩

/-! ### Claim C8: the zoom factor stays inside the closed interval 0.1 to 5 -/

theorem clampZoom_bounds (z : Rat) :
    1 / 10 ≤ clampZoom z ∧ clampZoom z ≤ 5 := by
  refine ⟨le_min (le_max_left _ _) (by norm_num), min_le_right _ _⟩

theorem zoomStep_bounds (z : Rat) (op : ZoomOp) :
    1 / 10 ≤ zoomStep z op ∧ zoomStep z op ≤ 5 := by
  cases op <;> exact clampZoom_bounds _

theorem foldl_zoomStep_bounds (ops : List ZoomOp) :
    ∀ z : Rat, 1 / 10 ≤ z → z ≤ 5 →
      1 / 10 ≤ ops.foldl zoomStep z ∧ ops.foldl zoomStep z ≤ 5 := by
  induction ops with
  | nil => exact fun z h1 h2 => ⟨h1, h2⟩
  | cons op rest ih =>
      intro z _ _
      exact ih (zoomStep z op) (zoomStep_bounds z op).1 (zoomStep_bounds z op).2

/-- C8: for every sequence of zoom operations (toolbar zoom-in/zoom-out and
mouse-wheel zoom) starting from the initial zoom factor 1, the resulting
zoom factor lies within the closed interval from 0.1 to 5. -/
theorem zoom_clamped_invariant (ops : List ZoomOp) :
    1 / 10 ≤ runZoom ops ∧ runZoom ops ≤ 5 :=
  foldl_zoomStep_bounds ops 1 (by norm_num) (by norm_num)

/-! ### Claim C9: `deleteEntry` removes exactly the entries with the id -/

/-- C9: `deleteEntry id` keeps an entry exactly when its id differs from the
given one, the surviving entries form a sublist of the original list (their
relative order and contents untouched), and when no entry carries the id the
store is unchanged. -/
theorem deleteEntry_removes_exactly_id (store : Store) (id : String) :
    (∀ e, e ∈ (deleteEntry store id).entries ↔ e ∈ store.entries ∧ e.id ≠ id)
  ∧ List.Sublist (deleteEntry store id).entries store.entries
  ∧ ((∀ e ∈ store.entries, e.id ≠ id) → deleteEntry store id = store) := by
  refine ⟨?_, ?_, ?_⟩
  · intro e
    simp [deleteEntry, List.mem_filter, bne_iff_ne]
  · exact List.filter_sublist _
  · intro h
    have hfe : store.entries.filter (fun e => e.id != id) = store.entries :=
      List.filter_eq_self.mpr fun a ha => by simpa [bne_iff_ne] using h a ha
    simp [deleteEntry, hfe]

/-- A two-entry store used to witness the no-op branch of `deleteEntry`. -/
def storeTwoEntries : Store := ⟨none, [entryA, entryB]⟩

/-- Witness for C9: deleting an id held by no entry leaves the two-entry
store unchanged. -/
theorem deleteEntry_removes_exactly_id_witness :
    (∀ e ∈ storeTwoEntries.entries, e.id ≠ "999") ∧
    deleteEntry storeTwoEntries "999" = storeTwoEntries :=
  ⟨by decide,
   (deleteEntry_removes_exactly_id storeTwoEntries "999").2.2 (by decide)⟩

/-! ### Claim C4: the empty-scene save deletes the draft slot -/

/-- C4: with zero objects `saveCanvasState` removes the `journal_draft` key;
with at least one object it overwrites the slot with the fresh
`{ version, timestamp, canvasData }` document; the entries list is untouched
either way. -/
theorem saveCanvasState_draft_lifecycle (store : Store) (ts : Nat)
    (c : Canvas) :
    (c.objects = [] → saveCanvasState store ts c = { store with draft := none })
  ∧ (c.objects ≠ [] →
      saveCanvasState store ts c =
        { store with
            draft := some (StoredDraft.valid ⟨"1.0", ts, c.toJSON⟩) }) := by
  constructor
  · intro h
    simp [saveCanvasState, h]
  · intro h
    simp [saveCanvasState, List.isEmpty_iff, h]

/-- Witness for C4: the blank canvas deletes the slot, the one-stroke canvas
overwrites it. -/
theorem saveCanvasState_draft_lifecycle_witness :
    (canvasBlank.objects = []) ∧
    saveCanvasState emptyStore 7 canvasBlank = { emptyStore with draft := none } ∧
    (canvasOneStroke.objects ≠ []) ∧
    saveCanvasState emptyStore 7 canvasOneStroke =
      { emptyStore with
          draft := some (StoredDraft.valid ⟨"1.0", 7, canvasOneStroke.toJSON⟩) } :=
  ⟨rfl, (saveCanvasState_draft_lifecycle emptyStore 7 canvasBlank).1 rfl,
   by decide,
   (saveCanvasState_draft_lifecycle emptyStore 7 canvasOneStroke).2 (by decide)⟩

/-! ### Claim C5: `saveEntry` appends one entry, then clears the draft -/

/-- C5: on a successful entries write, `saveEntry` appends exactly the one
new entry to the entries list and clears the draft slot; when the entries
write throws, the exception propagates before `removeItem` runs, so the
whole store (draft slot included) is unchanged and no entry is returned. -/
theorem saveEntry_append_then_clear (store : Store) (now : Nat) (c : Canvas)
    (title : String) :
    (saveEntry store now c title true).1.entries
        = store.entries ++ [mkJournalEntry now title c]
  ∧ (saveEntry store now c title true).1.draft = none
  ∧ (saveEntry store now c title true).2 = some (mkJournalEntry now title c)
  ∧ (saveEntry store now c title false).1 = store
  ∧ (saveEntry store now c title false).2 = none :=
  ⟨rfl, rfl, rfl, rfl, rfl⟩

/-! ### Claim C6: `loadDraft` signals absence and corruption by `false` -/

/-- C6: `loadDraft` reports success exactly when the draft slot holds a
document that parses and has a `canvasData` field; in every failing case
(absent slot, unparsable string, missing `canvasData`) it returns `false`
and leaves the canvas untouched rather than raising an error (the embedding
is a total function, so no exception escapes). -/
theorem loadDraft_corrupt_returns_false (store : Store) (c : Canvas) :
    ((loadDraft store c).1 = true ↔
        ∃ doc, store.draft = some (StoredDraft.valid doc))
  ∧ ((loadDraft store c).1 = false → loadDraft store c = (false, c)) := by
  constructor
  · cases h : store.draft with
    | none => simp [loadDraft, h]
    | some d => cases d <;> simp [loadDraft, h]
  · intro hf
    cases h : store.draft with
    | none => simp [loadDraft, h]
    | some d =>
        cases d with
        | malformed => simp [loadDraft, h]
        | noCanvasData => simp [loadDraft, h]
        | valid st => simp [loadDraft, h] at hf

/-- Witness for C6: a draft slot holding an unparsable string loads as
`false` with the canvas unchanged. -/
theorem loadDraft_corrupt_returns_false_witness :
    ((loadDraft ⟨some StoredDraft.malformed, []⟩ canvasBlank).1 = false) ∧
    loadDraft ⟨some StoredDraft.malformed, []⟩ canvasBlank =
      (false, canvasBlank) :=
  ⟨by decide,
   (loadDraft_corrupt_returns_false ⟨some StoredDraft.malformed, []⟩
      canvasBlank).2 (by decide)⟩

/-! ### Claim C7: the eraser paints in the canvas background color -/

/-- C7: activating the eraser installs a brush colored with the canvas's
background color and sized by the eraser width, independent of the pen
width (the pen keeps its own color and width), and a committed eraser
stroke is a path object whose stroke color is the background color. -/
theorem eraser_brush_matches_background (c : Canvas) (bs es : Rat)
    (pen : String) (pts : List (Rat × Rat)) :
    (applyToolBrush c Tool.eraser bs es pen).freeDrawingBrush.color
        = c.backgroundColor
  ∧ (applyToolBrush c Tool.eraser bs es pen).freeDrawingBrush.width = es
  ∧ (applyToolBrush c Tool.pen bs es pen).freeDrawingBrush.width = bs
  ∧ (applyToolBrush c Tool.pen bs es pen).freeDrawingBrush.color = pen
  ∧ (commitStroke (applyToolBrush c Tool.eraser bs es pen) pts).objects
        = (applyToolBrush c Tool.eraser bs es pen).objects
            ++ [mkStrokeObj pts c.backgroundColor es] :=
  ⟨rfl, rfl, rfl, rfl, rfl⟩

/-! ### Claim C10: loading a draft forces the interaction flags on -/

/-- C10: whenever the draft slot holds a usable document, `loadDraft`
succeeds and every loaded object ends up with `selectable`, `hasControls`,
`evented` and `perPixelTargetFind` set to `true` (and `editable` true for
text objects), whatever the stored values of those flags were. -/
theorem loadDraft_forces_interaction_flags (store : Store) (c : Canvas)
    (doc : CanvasState) (h : store.draft = some (StoredDraft.valid doc)) :
    (loadDraft store c).1 = true ∧
    ∀ o ∈ (loadDraft store c).2.objects,
      o.selectable = true ∧ o.hasControls = true ∧ o.evented = true ∧
      o.perPixelTargetFind = true ∧
      (o.kind = ObjKind.itext → o.editable = true) := by
  have h2 : (loadDraft store c).2.objects
      = doc.canvasData.objects.map restoreProps := by
    simp [loadDraft, h]
  constructor
  · simp [loadDraft, h]
  · intro o ho
    rw [h2] at ho
    obtain ⟨o', _, rfl⟩ := List.mem_map.mp ho
    exact restoreProps_flags o'

/-- Witness for C10: a stored draft whose stroke and text objects carry
all-off interaction flags loads with every flag forced on. -/
theorem loadDraft_forces_interaction_flags_witness :
    (storeFlagsOff.draft = some (StoredDraft.valid draftFlagsOff)) ∧
    ((loadDraft storeFlagsOff canvasBlank).1 = true ∧
      ∀ o ∈ (loadDraft storeFlagsOff canvasBlank).2.objects,
        o.selectable = true ∧ o.hasControls = true ∧ o.evented = true ∧
        o.perPixelTargetFind = true ∧
        (o.kind = ObjKind.itext → o.editable = true)) :=
  ⟨rfl,
   loadDraft_forces_interaction_flags storeFlagsOff canvasBlank
     draftFlagsOff rfl⟩

end HelloJournal
